import Mathlib

/-!
Verification of the passh concurrent-SSH orchestrator (src/passh/__init__.py)
against its natural-language specification.

The embedding below translates the source code directly:
* `PAsshProtocol` (the per-session output multiplexer and completion tracker)
  becomes the state type `ProtoState` with a step function `stepT` over the
  asyncio callback events (`pipe_data_received`, `pipe_connection_lost`,
  `process_exited`).
* `PAssh._run1` / `PAssh.run` (the orchestrator) become `stepHost` / `runAll`
  / `runBool`, which serialize the per-host sessions.
* Bytes are modelled as `Nat`; byte strings as `List Nat`.

Definitions whose doc comment says `Spec-side:` are transcribed from the
specification's words (not from the code) so that code and spec can be
compared; everything else is transcribed from the source.
-/

abbrev Byte := Nat

/-- `bytearray.rfind(b'\n')` from `flush_line`: index of the last newline
byte (10), or `none` when the buffer has no newline (Python returns -1). -/
def rfindNL : List Byte → Option Nat
  | [] => none
  | c :: rest =>
    match rfindNL rest with
    | some i => some (i + 1)
    | none => if c = 10 then some 0 else none

/-- Python `bytes.splitlines(keepends=True)` used by `flush_line`: for byte
strings it splits on LF (10), CR (13) and CRLF (13,10), keeping the
terminator with each line.  `acc` holds the current line, reversed. -/
def splitLinesAux : List Byte → List Byte → List (List Byte)
  | [], acc => if acc.isEmpty then [] else [acc.reverse]
  | 13 :: 10 :: rest, acc => (acc.reverse ++ [13, 10]) :: splitLinesAux rest []
  | 13 :: rest, acc => (acc.reverse ++ [13]) :: splitLinesAux rest []
  | 10 :: rest, acc => (acc.reverse ++ [10]) :: splitLinesAux rest []
  | c :: rest, acc => splitLinesAux rest (c :: acc)

def splitLines (b : List Byte) : List (List Byte) :=
  splitLinesAux b []

/-- Spec-side: lines "delimited only by newline bytes", terminator kept
(claim C2's reading of line splitting). -/
def splitNLAux : List Byte → List Byte → List (List Byte)
  | [], acc => if acc.isEmpty then [] else [acc.reverse]
  | c :: rest, acc =>
    if c = 10 then (acc.reverse ++ [10]) :: splitNLAux rest []
    else splitNLAux rest (c :: acc)

def splitNLOnly (b : List Byte) : List (List Byte) :=
  splitNLAux b []

/-- `PAsshProtocol.flush_line`: find the last newline; emit one sink write
per line of the complete part, each prefixed with the host tag; keep the
trailing fragment.  Returns (sink writes, remaining buffer). -/
def flushLine (tag buf : List Byte) : List (List Byte) × List Byte :=
  match rfindNL buf with
  | none => ([], buf)
  | some pos =>
    ((splitLines (buf.take (pos + 1))).map (fun line => tag ++ line),
     buf.drop (pos + 1))

/-- Spec-side: same as `flushLine` but with lines delimited only by newline
bytes, as claim C2 states. -/
def specFlushLine (tag buf : List Byte) : List (List Byte) × List Byte :=
  match rfindNL buf with
  | none => ([], buf)
  | some pos =>
    ((splitNLOnly (buf.take (pos + 1))).map (fun line => tag ++ line),
     buf.drop (pos + 1))

/-- `PAsshProtocol._flush`: at completion, a nonempty buffer is emitted as
one write, prefixed and with a synthetic newline appended; empty buffers
emit nothing.  (The buffer itself is not cleared, as in the source.) -/
def flushBuf (tag buf : List Byte) : List (List Byte) :=
  if buf = [] then [] else [tag ++ buf ++ [10]]

-- ### Command construction (`PAssh._run1`, lines 168-172)

def _SSH : List String :=
  ["ssh", "-T", "-o", "LogLevel=ERROR", "-o", "ConnectTimeout=6"]

def _INSECURE_OPTS : List String :=
  ["-o", "StrictHostKeyChecking=no", "-o", "UserKnownHostsFile=/dev/null"]

/-- `_run1`'s argv: `cmd = list(_SSH); if self._secure: cmd.extend(_INSECURE_OPTS);
cmd.append(host); cmd += self._args`, where `self._secure = not insecure`. -/
def buildCmd (insecure : Bool) (host : String) (args : List String) : List String :=
  let secure := !insecure
  _SSH ++ (if secure then _INSECURE_OPTS else []) ++ [host] ++ args

/-- Spec-side: claim C4's argv — the bypass options appear when and only
when the insecure flag is set. -/
def specCmd (insecure : Bool) (host : String) (args : List String) : List String :=
  _SSH ++ (if insecure then _INSECURE_OPTS else []) ++ [host] ++ args

/-- Spec-side, amended: the bypass options appear exactly when the insecure
flag is NOT set (the source treats `insecure=True` as "my network is
hostile, verify host keys"). -/
def specCmdAmended (insecure : Bool) (host : String) (args : List String) : List String :=
  _SSH ++ (if insecure then [] else _INSECURE_OPTS) ++ [host] ++ args

-- ### The per-session protocol (`PAsshProtocol`)

/-- State of one `PAsshProtocol` instance.  `tag` is `self._prefix`
(`b'[' + hostname + b'] '`); `outBuf`/`errBuf` are `self._stdout` /
`self._stderr`; the three flags mirror `_exited`, `_closed_stdout`,
`_closed_stderr`.  `outWrites`/`errWrites` record every write made to
`sys.stdout.buffer` / `sys.stderr.buffer`.  The three counters are proof
instrumentation: `flushCalls` counts calls of `flush()` (the final flush of
both buffers), `finishTransitions` counts false→true transitions of the
`finished` property, and `futureResolutions` counts
`exit_future.set_result` calls. -/
structure ProtoState where
  tag : List Byte
  useStdout : Bool
  outBuf : List Byte
  errBuf : List Byte
  exited : Bool
  closedStdout : Bool
  closedStderr : Bool
  outWrites : List (List Byte)
  errWrites : List (List Byte)
  flushCalls : Nat
  finishTransitions : Nat
  futureResolutions : Nat
deriving DecidableEq

def initProto (host : List Byte) (us : Bool) : ProtoState :=
  { tag := [91] ++ host ++ [93, 32], useStdout := us, outBuf := [], errBuf := [],
    exited := false, closedStdout := false, closedStderr := false,
    outWrites := [], errWrites := [], flushCalls := 0,
    finishTransitions := 0, futureResolutions := 0 }

/-- `PAsshProtocol.finished`. -/
def finishedP (s : ProtoState) : Bool :=
  s.exited && s.closedStdout && s.closedStderr

/-- `PAsshProtocol.flush`: `_flush` the stdout buffer to stdout unless in
capture mode, and always `_flush` the stderr buffer to stderr.  Neither
buffer is cleared (the source does not clear them either). -/
def flushAll (s : ProtoState) : ProtoState :=
  { s with
    outWrites := s.outWrites ++ (if s.useStdout then [] else flushBuf s.tag s.outBuf),
    errWrites := s.errWrites ++ flushBuf s.tag s.errBuf,
    flushCalls := s.flushCalls + 1 }

/-- `PAsshProtocol.signal_exit`: a no-op unless `finished`; otherwise
`flush()` then `exit_future.set_result(True)`. -/
def signalExit (s : ProtoState) : ProtoState :=
  if finishedP s then
    let s' := flushAll s
    { s' with futureResolutions := s'.futureResolutions + 1 }
  else s

/-- The asyncio callbacks a `PAsshProtocol` can receive:
`pipe_data_received(fd, chunk)`, `pipe_connection_lost(fd, exc)` and
`process_exited()`. -/
inductive PEvent where
  | data (fd : Nat) (chunk : List Byte)
  | lost (fd : Nat)
  | procExit
deriving DecidableEq

/-- One callback, exactly as the source dispatches it:
`pipe_data_received` appends to the fd's buffer and (except for captured
stdout) flushes complete lines; `pipe_connection_lost` marks the fd closed
(only fds 1 and 2 have flags) and calls `signal_exit`; `process_exited`
marks exit and calls `signal_exit`. -/
def pStep (s : ProtoState) : PEvent → ProtoState
  | .data fd chunk =>
    if fd = 1 then
      if s.useStdout then { s with outBuf := s.outBuf ++ chunk }
      else
        let r := flushLine s.tag (s.outBuf ++ chunk)
        { s with outBuf := r.2, outWrites := s.outWrites ++ r.1 }
    else if fd = 2 then
      let r := flushLine s.tag (s.errBuf ++ chunk)
      { s with errBuf := r.2, errWrites := s.errWrites ++ r.1 }
    else s
  | .lost fd =>
    signalExit (if fd = 1 then { s with closedStdout := true }
                else if fd = 2 then { s with closedStderr := true }
                else s)
  | .procExit => signalExit { s with exited := true }

/-- `pStep` plus instrumentation of the `finished` transition count. -/
def stepT (s : ProtoState) (e : PEvent) : ProtoState :=
  let s' := pStep s e
  if !finishedP s && finishedP s' then
    { s' with finishTransitions := s'.finishTransitions + 1 }
  else s'

/-- Run a whole sequence of callbacks. -/
def pRun (s : ProtoState) (evs : List PEvent) : ProtoState :=
  evs.foldl stepT s

-- ### The orchestrator (`PAssh`)

/-- One host's observable behaviour: the exit status of its ssh child and
the chunk sequences the child delivers on stdout and stderr. -/
structure HostRun where
  host : List Byte
  exitCode : Int
  stdoutChunks : List (List Byte)
  stderrChunks : List (List Byte)
deriving DecidableEq

/-- The callback schedule of one session: all data, then both pipes close,
then the process-exited notification. -/
def sessionEvents (r : HostRun) : List PEvent :=
  r.stdoutChunks.map (PEvent.data 1) ++ r.stderrChunks.map (PEvent.data 2)
    ++ [PEvent.lost 1, PEvent.lost 2, PEvent.procExit]

/-- The protocol state of host `r`'s session after it finished. -/
def runSession (us : Bool) (r : HostRun) : ProtoState :=
  pRun (initProto r.host us) (sessionEvents r)

/-- Python dict assignment `d[k] = v` on an association list. -/
def dictInsert (k v : List Byte) : List (List Byte × List Byte) → List (List Byte × List Byte)
  | [] => [(k, v)]
  | (k', v') :: rest =>
    if k' = k then (k, v) :: rest else (k', v') :: dictInsert k v rest

/-- Python dict lookup `d.get(k)`. -/
def lookupD (k : List Byte) : List (List Byte × List Byte) → Option (List Byte)
  | [] => none
  | (k', v) :: rest => if k' = k then some v else lookupD k rest

/-- `self._failures` and `self._outputs` of a `PAssh` instance. -/
structure RunState where
  failures : List (List Byte)
  outputs : List (List Byte × List Byte)
deriving DecidableEq

/-- The tail of `PAssh._run1` after `exit_future` resolves: nonzero exit
appends the host to `_failures` and returns; otherwise, in capture mode,
`_outputs[host] = protocol.get_stdout()`. -/
def stepHost (us : Bool) (st : RunState) (r : HostRun) : RunState :=
  if r.exitCode ≠ 0 then { st with failures := st.failures ++ [r.host] }
  else if us then
    { st with outputs := dictInsert r.host (runSession us r).outBuf st.outputs }
  else st

/-- All sessions of a run, serialized. -/
def runAll (us : Bool) (hosts : List HostRun) : RunState :=
  hosts.foldl (stepHost us) { failures := [], outputs := [] }

/-- `PAssh.run`'s return value: `True` immediately for an empty host list,
otherwise `len(self._failures) == 0`. -/
def runBool (us : Bool) (hosts : List HostRun) : Bool :=
  if hosts.isEmpty then true else ((runAll us hosts).failures).isEmpty

-- ### The concurrency gate (`PAssh._run`'s semaphore)

/-- Counting abstraction of the sessions of one run: how many have not yet
entered `with (yield from self._sem)` (`pending`), how many are between
acquire and release (`running`, each holding one slot), and how many have
released (`finished`), together with the semaphore's acquired-slot count. -/
structure GateState where
  pending : Nat
  running : Nat
  finished : Nat
  slots : Nat
deriving DecidableEq

/-- The transitions of `PAssh._run` under `asyncio.Semaphore(N)`:
`acquire` is `with (yield from self._sem)` succeeding (only when a slot is
free); `release` is the `with` block exiting — by normal return, by an
exception from `_run1`, or by cancellation unwinding the block — which
always releases the slot; `cancelPending` is a session cancelled before it
ever acquired. -/
inductive GStep (N : Nat) : GateState → GateState → Prop
  | acquire (p r d sl : Nat) (hp : 0 < p) (hsl : sl < N) :
      GStep N ⟨p, r, d, sl⟩ ⟨p - 1, r + 1, d, sl + 1⟩
  | release (p r d sl : Nat) (hr : 0 < r) :
      GStep N ⟨p, r, d, sl⟩ ⟨p, r - 1, d + 1, sl - 1⟩
  | cancelPending (p r d sl : Nat) (hp : 0 < p) :
      GStep N ⟨p, r, d, sl⟩ ⟨p - 1, r, d + 1, sl⟩

/-- States reachable during a run over `total` hosts with concurrency `N`. -/
def GReach (N total : Nat) (s : GateState) : Prop :=
  Relation.ReflTransGen (GStep N) ⟨total, 0, 0, 0⟩ s

-- ### The fault slot (`PAssh._exc`)

/-- The except-branch of `PAssh._run`: `self._exc = e` — an unconditional
overwrite of the slot, whatever it held. -/
def recordFault (_slot : Option Nat) (e : Nat) : Option Nat :=
  some e

/-- The value of `self._exc` after all sessions settled, given each
session's report (`none` = completed without raising, `some e` = raised
fault `e`), in settlement order.  `PAssh.run` re-raises exactly this value
when it is `some`. -/
def runExc (reports : List (Option Nat)) : Option Nat :=
  reports.foldl
    (fun slot o => match o with
      | none => slot
      | some e => recordFault slot e)
    none

/-- Spec-side: claim C7's first-writer-wins slot — a report is a no-op when
the slot is already set. -/
def specFaultSlot (reports : List (Option Nat)) : Option Nat :=
  reports.foldl
    (fun slot o => match slot with
      | some f => some f
      | none => o)
    none

/-- Number of times `self._exc = e` executes during a run. -/
def excWriteCount (reports : List (Option Nat)) : Nat :=
  (reports.filterMap id).length

-- ### The input-file handle (`PAssh._run1`'s stdin)

/-- The ways one session can exit in `PAssh._run1` once the input file has
been opened. -/
inductive StdinExitPath where
  | normal
  | cancelledAwaitingExit
  | spawnFailure
deriving DecidableEq

/-- Whether `exit_future` ever completes on the given exit path.  It is
resolved by `signal_exit` on normal completion, and cancelled together
with the task when the task is cancelled while awaiting it; but when
`loop.subprocess_exec` raises, `_run1` propagates the exception before
ever awaiting `exit_future`, which is left pending forever. -/
def exitFutureCompletes : StdinExitPath → Bool
  | .normal => true
  | .cancelledAwaitingExit => true
  | .spawnFailure => false

/-- The handle-closing callback registered by
`exit_future.add_done_callback(lambda x: stdin.close())` runs exactly when
the future completes, and asyncio runs a done callback once. -/
def infileCloseCount (p : StdinExitPath) : Nat :=
  if exitFutureCompletes p then 1 else 0

/-- Two protocol states that agree on everything the stderr pipeline and
the completion logic can observe (they may differ in capture flag, stdout
buffer and stdout writes). -/
def ErrEq (s t : ProtoState) : Prop :=
  s.tag = t.tag ∧ s.errBuf = t.errBuf ∧ s.errWrites = t.errWrites ∧
  s.exited = t.exited ∧ s.closedStdout = t.closedStdout ∧
  s.closedStderr = t.closedStderr ∧ s.flushCalls = t.flushCalls ∧
  s.finishTransitions = t.finishTransitions ∧
  s.futureResolutions = t.futureResolutions

-- ## Helper lemmas: how one callback changes each field

section StepFieldLemmas

variable (s : ProtoState)

@[simp] theorem stepT_tag (e : PEvent) : (stepT s e).tag = s.tag := by
  cases e <;> cases hE : s.exited <;> cases hC1 : s.closedStdout <;>
    cases hC2 : s.closedStderr <;>
    simp [stepT, pStep, signalExit, flushAll, finishedP, hE, hC1, hC2] <;>
    split_ifs <;> simp_all <;> omega

@[simp] theorem stepT_useStdout (e : PEvent) :
    (stepT s e).useStdout = s.useStdout := by
  cases e <;> cases hE : s.exited <;> cases hC1 : s.closedStdout <;>
    cases hC2 : s.closedStderr <;>
    simp [stepT, pStep, signalExit, flushAll, finishedP, hE, hC1, hC2] <;>
    split_ifs <;> simp_all <;> omega

@[simp] theorem stepT_exited_data (fd : Nat) (c : List Byte) :
    (stepT s (.data fd c)).exited = s.exited := by
  cases hE : s.exited <;> cases hC1 : s.closedStdout <;>
    cases hC2 : s.closedStderr <;>
    simp [stepT, pStep, signalExit, flushAll, finishedP, hE, hC1, hC2] <;>
    split_ifs <;> simp_all <;> omega

@[simp] theorem stepT_closed1_data (fd : Nat) (c : List Byte) :
    (stepT s (.data fd c)).closedStdout = s.closedStdout := by
  cases hE : s.exited <;> cases hC1 : s.closedStdout <;>
    cases hC2 : s.closedStderr <;>
    simp [stepT, pStep, signalExit, flushAll, finishedP, hE, hC1, hC2] <;>
    split_ifs <;> simp_all <;> omega

@[simp] theorem stepT_closed2_data (fd : Nat) (c : List Byte) :
    (stepT s (.data fd c)).closedStderr = s.closedStderr := by
  cases hE : s.exited <;> cases hC1 : s.closedStdout <;>
    cases hC2 : s.closedStderr <;>
    simp [stepT, pStep, signalExit, flushAll, finishedP, hE, hC1, hC2] <;>
    split_ifs <;> simp_all <;> omega

@[simp] theorem stepT_outBuf_data (fd : Nat) (c : List Byte) :
    (stepT s (.data fd c)).outBuf =
      if fd = 1 then
        (if s.useStdout then s.outBuf ++ c else (flushLine s.tag (s.outBuf ++ c)).2)
      else s.outBuf := by
  cases hE : s.exited <;> cases hC1 : s.closedStdout <;>
    cases hC2 : s.closedStderr <;>
    simp [stepT, pStep, signalExit, flushAll, finishedP, hE, hC1, hC2] <;>
    split_ifs <;> simp_all <;> omega

@[simp] theorem stepT_outWrites_data (fd : Nat) (c : List Byte) :
    (stepT s (.data fd c)).outWrites =
      if fd = 1 then
        (if s.useStdout then s.outWrites
         else s.outWrites ++ (flushLine s.tag (s.outBuf ++ c)).1)
      else s.outWrites := by
  cases hE : s.exited <;> cases hC1 : s.closedStdout <;>
    cases hC2 : s.closedStderr <;>
    simp [stepT, pStep, signalExit, flushAll, finishedP, hE, hC1, hC2] <;>
    split_ifs <;> simp_all <;> omega

@[simp] theorem stepT_errBuf_data (fd : Nat) (c : List Byte) :
    (stepT s (.data fd c)).errBuf =
      if fd = 2 then (flushLine s.tag (s.errBuf ++ c)).2 else s.errBuf := by
  cases hE : s.exited <;> cases hC1 : s.closedStdout <;>
    cases hC2 : s.closedStderr <;>
    simp [stepT, pStep, signalExit, flushAll, finishedP, hE, hC1, hC2] <;>
    split_ifs <;> simp_all <;> omega

@[simp] theorem stepT_errWrites_data (fd : Nat) (c : List Byte) :
    (stepT s (.data fd c)).errWrites =
      if fd = 2 then s.errWrites ++ (flushLine s.tag (s.errBuf ++ c)).1
      else s.errWrites := by
  cases hE : s.exited <;> cases hC1 : s.closedStdout <;>
    cases hC2 : s.closedStderr <;>
    simp [stepT, pStep, signalExit, flushAll, finishedP, hE, hC1, hC2] <;>
    split_ifs <;> simp_all <;> omega

@[simp] theorem stepT_flushCalls_data (fd : Nat) (c : List Byte) :
    (stepT s (.data fd c)).flushCalls = s.flushCalls := by
  cases hE : s.exited <;> cases hC1 : s.closedStdout <;>
    cases hC2 : s.closedStderr <;>
    simp [stepT, pStep, signalExit, flushAll, finishedP, hE, hC1, hC2] <;>
    split_ifs <;> simp_all <;> omega

@[simp] theorem stepT_trans_data (fd : Nat) (c : List Byte) :
    (stepT s (.data fd c)).finishTransitions = s.finishTransitions := by
  cases hE : s.exited <;> cases hC1 : s.closedStdout <;>
    cases hC2 : s.closedStderr <;>
    simp [stepT, pStep, signalExit, flushAll, finishedP, hE, hC1, hC2] <;>
    split_ifs <;> simp_all <;> omega

@[simp] theorem stepT_future_data (fd : Nat) (c : List Byte) :
    (stepT s (.data fd c)).futureResolutions = s.futureResolutions := by
  cases hE : s.exited <;> cases hC1 : s.closedStdout <;>
    cases hC2 : s.closedStderr <;>
    simp [stepT, pStep, signalExit, flushAll, finishedP, hE, hC1, hC2] <;>
    split_ifs <;> simp_all <;> omega

@[simp] theorem stepT_exited_lost (fd : Nat) :
    (stepT s (.lost fd)).exited = s.exited := by
  cases hE : s.exited <;> cases hC1 : s.closedStdout <;>
    cases hC2 : s.closedStderr <;>
    simp [stepT, pStep, signalExit, flushAll, finishedP, hE, hC1, hC2] <;>
    split_ifs <;> simp_all <;> omega

@[simp] theorem stepT_closed1_lost (fd : Nat) :
    (stepT s (.lost fd)).closedStdout =
      if fd = 1 then true else s.closedStdout := by
  cases hE : s.exited <;> cases hC1 : s.closedStdout <;>
    cases hC2 : s.closedStderr <;>
    simp [stepT, pStep, signalExit, flushAll, finishedP, hE, hC1, hC2] <;>
    split_ifs <;> simp_all <;> omega

@[simp] theorem stepT_closed2_lost (fd : Nat) :
    (stepT s (.lost fd)).closedStderr =
      if fd = 2 then true else s.closedStderr := by
  cases hE : s.exited <;> cases hC1 : s.closedStdout <;>
    cases hC2 : s.closedStderr <;>
    simp [stepT, pStep, signalExit, flushAll, finishedP, hE, hC1, hC2] <;>
    split_ifs <;> simp_all <;> omega

@[simp] theorem stepT_outBuf_lost (fd : Nat) :
    (stepT s (.lost fd)).outBuf = s.outBuf := by
  cases hE : s.exited <;> cases hC1 : s.closedStdout <;>
    cases hC2 : s.closedStderr <;>
    simp [stepT, pStep, signalExit, flushAll, finishedP, hE, hC1, hC2] <;>
    split_ifs <;> simp_all <;> omega

@[simp] theorem stepT_errBuf_lost (fd : Nat) :
    (stepT s (.lost fd)).errBuf = s.errBuf := by
  cases hE : s.exited <;> cases hC1 : s.closedStdout <;>
    cases hC2 : s.closedStderr <;>
    simp [stepT, pStep, signalExit, flushAll, finishedP, hE, hC1, hC2] <;>
    split_ifs <;> simp_all <;> omega

@[simp] theorem stepT_errWrites_lost (fd : Nat) :
    (stepT s (.lost fd)).errWrites =
      if s.exited && (if fd = 1 then true else s.closedStdout)
          && (if fd = 2 then true else s.closedStderr) then
        s.errWrites ++ flushBuf s.tag s.errBuf
      else s.errWrites := by
  cases hE : s.exited <;> cases hC1 : s.closedStdout <;>
    cases hC2 : s.closedStderr <;>
    simp [stepT, pStep, signalExit, flushAll, finishedP, hE, hC1, hC2] <;>
    split_ifs <;> simp_all <;> omega

@[simp] theorem stepT_outWrites_lost (fd : Nat) :
    (stepT s (.lost fd)).outWrites =
      if s.exited && (if fd = 1 then true else s.closedStdout)
          && (if fd = 2 then true else s.closedStderr) then
        s.outWrites ++ (if s.useStdout then [] else flushBuf s.tag s.outBuf)
      else s.outWrites := by
  cases hE : s.exited <;> cases hC1 : s.closedStdout <;>
    cases hC2 : s.closedStderr <;>
    simp [stepT, pStep, signalExit, flushAll, finishedP, hE, hC1, hC2] <;>
    split_ifs <;> simp_all <;> omega

@[simp] theorem stepT_flushCalls_lost (fd : Nat) :
    (stepT s (.lost fd)).flushCalls =
      if s.exited && (if fd = 1 then true else s.closedStdout)
          && (if fd = 2 then true else s.closedStderr) then
        s.flushCalls + 1
      else s.flushCalls := by
  cases hE : s.exited <;> cases hC1 : s.closedStdout <;>
    cases hC2 : s.closedStderr <;>
    simp [stepT, pStep, signalExit, flushAll, finishedP, hE, hC1, hC2] <;>
    split_ifs <;> simp_all <;> omega

@[simp] theorem stepT_future_lost (fd : Nat) :
    (stepT s (.lost fd)).futureResolutions =
      if s.exited && (if fd = 1 then true else s.closedStdout)
          && (if fd = 2 then true else s.closedStderr) then
        s.futureResolutions + 1
      else s.futureResolutions := by
  cases hE : s.exited <;> cases hC1 : s.closedStdout <;>
    cases hC2 : s.closedStderr <;>
    simp [stepT, pStep, signalExit, flushAll, finishedP, hE, hC1, hC2] <;>
    split_ifs <;> simp_all <;> omega

@[simp] theorem stepT_trans_lost (fd : Nat) :
    (stepT s (.lost fd)).finishTransitions =
      if !(s.exited && s.closedStdout && s.closedStderr)
          && (s.exited && (if fd = 1 then true else s.closedStdout)
              && (if fd = 2 then true else s.closedStderr)) then
        s.finishTransitions + 1
      else s.finishTransitions := by
  cases hE : s.exited <;> cases hC1 : s.closedStdout <;>
    cases hC2 : s.closedStderr <;>
    simp [stepT, pStep, signalExit, flushAll, finishedP, hE, hC1, hC2] <;>
    split_ifs <;> simp_all <;> omega

@[simp] theorem stepT_exited_procExit : (stepT s .procExit).exited = true := by
  cases hE : s.exited <;> cases hC1 : s.closedStdout <;>
    cases hC2 : s.closedStderr <;>
    simp [stepT, pStep, signalExit, flushAll, finishedP, hE, hC1, hC2] <;>
    split_ifs <;> simp_all <;> omega

@[simp] theorem stepT_closed1_procExit :
    (stepT s .procExit).closedStdout = s.closedStdout := by
  cases hE : s.exited <;> cases hC1 : s.closedStdout <;>
    cases hC2 : s.closedStderr <;>
    simp [stepT, pStep, signalExit, flushAll, finishedP, hE, hC1, hC2] <;>
    split_ifs <;> simp_all <;> omega

@[simp] theorem stepT_closed2_procExit :
    (stepT s .procExit).closedStderr = s.closedStderr := by
  cases hE : s.exited <;> cases hC1 : s.closedStdout <;>
    cases hC2 : s.closedStderr <;>
    simp [stepT, pStep, signalExit, flushAll, finishedP, hE, hC1, hC2] <;>
    split_ifs <;> simp_all <;> omega

@[simp] theorem stepT_outBuf_procExit : (stepT s .procExit).outBuf = s.outBuf := by
  cases hE : s.exited <;> cases hC1 : s.closedStdout <;>
    cases hC2 : s.closedStderr <;>
    simp [stepT, pStep, signalExit, flushAll, finishedP, hE, hC1, hC2] <;>
    split_ifs <;> simp_all <;> omega

@[simp] theorem stepT_errBuf_procExit : (stepT s .procExit).errBuf = s.errBuf := by
  cases hE : s.exited <;> cases hC1 : s.closedStdout <;>
    cases hC2 : s.closedStderr <;>
    simp [stepT, pStep, signalExit, flushAll, finishedP, hE, hC1, hC2] <;>
    split_ifs <;> simp_all <;> omega

@[simp] theorem stepT_errWrites_procExit :
    (stepT s .procExit).errWrites =
      if s.closedStdout && s.closedStderr then
        s.errWrites ++ flushBuf s.tag s.errBuf
      else s.errWrites := by
  cases hE : s.exited <;> cases hC1 : s.closedStdout <;>
    cases hC2 : s.closedStderr <;>
    simp [stepT, pStep, signalExit, flushAll, finishedP, hE, hC1, hC2] <;>
    split_ifs <;> simp_all <;> omega

@[simp] theorem stepT_outWrites_procExit :
    (stepT s .procExit).outWrites =
      if s.closedStdout && s.closedStderr then
        s.outWrites ++ (if s.useStdout then [] else flushBuf s.tag s.outBuf)
      else s.outWrites := by
  cases hE : s.exited <;> cases hC1 : s.closedStdout <;>
    cases hC2 : s.closedStderr <;>
    simp [stepT, pStep, signalExit, flushAll, finishedP, hE, hC1, hC2] <;>
    split_ifs <;> simp_all <;> omega

@[simp] theorem stepT_flushCalls_procExit :
    (stepT s .procExit).flushCalls =
      if s.closedStdout && s.closedStderr then s.flushCalls + 1
      else s.flushCalls := by
  cases hE : s.exited <;> cases hC1 : s.closedStdout <;>
    cases hC2 : s.closedStderr <;>
    simp [stepT, pStep, signalExit, flushAll, finishedP, hE, hC1, hC2] <;>
    split_ifs <;> simp_all <;> omega

@[simp] theorem stepT_future_procExit :
    (stepT s .procExit).futureResolutions =
      if s.closedStdout && s.closedStderr then s.futureResolutions + 1
      else s.futureResolutions := by
  cases hE : s.exited <;> cases hC1 : s.closedStdout <;>
    cases hC2 : s.closedStderr <;>
    simp [stepT, pStep, signalExit, flushAll, finishedP, hE, hC1, hC2] <;>
    split_ifs <;> simp_all <;> omega

@[simp] theorem stepT_trans_procExit :
    (stepT s .procExit).finishTransitions =
      if !(s.exited && s.closedStdout && s.closedStderr)
          && (s.closedStdout && s.closedStderr) then
        s.finishTransitions + 1
      else s.finishTransitions := by
  cases hE : s.exited <;> cases hC1 : s.closedStdout <;>
    cases hC2 : s.closedStderr <;>
    simp [stepT, pStep, signalExit, flushAll, finishedP, hE, hC1, hC2] <;>
    split_ifs <;> simp_all <;> omega

end StepFieldLemmas

-- ## Helper lemmas: whole event sequences

theorem pRun_nil (s : ProtoState) : pRun s [] = s := rfl

theorem pRun_cons (s : ProtoState) (e : PEvent) (evs : List PEvent) :
    pRun s (e :: evs) = pRun (stepT s e) evs := rfl

theorem pRun_append (s : ProtoState) (l1 l2 : List PEvent) :
    pRun s (l1 ++ l2) = pRun (pRun s l1) l2 :=
  List.foldl_append stepT s l1 l2

@[simp] theorem pRun_tag (evs : List PEvent) (s : ProtoState) :
    (pRun s evs).tag = s.tag := by
  induction evs generalizing s with
  | nil => rfl
  | cons e t ih => rw [pRun_cons, ih, stepT_tag]

@[simp] theorem pRun_useStdout (evs : List PEvent) (s : ProtoState) :
    (pRun s evs).useStdout = s.useStdout := by
  induction evs generalizing s with
  | nil => rfl
  | cons e t ih => rw [pRun_cons, ih, stepT_useStdout]

/-- The `_exited` flag is set exactly by a `process_exited` callback. -/
theorem pRun_exited (evs : List PEvent) (s : ProtoState) :
    (pRun s evs).exited = (s.exited || decide (PEvent.procExit ∈ evs)) := by
  induction evs generalizing s with
  | nil => simp [pRun_nil]
  | cons e t ih =>
    rw [pRun_cons, ih]
    cases e <;> simp [List.mem_cons] <;> cases s.exited <;> simp

/-- The `_closed_stdout` flag is set exactly by `pipe_connection_lost(1)`. -/
theorem pRun_closed1 (evs : List PEvent) (s : ProtoState) :
    (pRun s evs).closedStdout
      = (s.closedStdout || decide (PEvent.lost 1 ∈ evs)) := by
  induction evs generalizing s with
  | nil => simp [pRun_nil]
  | cons e t ih =>
    rw [pRun_cons, ih]
    cases e with
    | data fd c => simp [List.mem_cons]
    | procExit => simp [List.mem_cons]
    | lost fd =>
      by_cases hfd : fd = 1
      · subst hfd; simp [List.mem_cons]
      · have h1 : decide (1 = fd) = false := by simp [Ne.symm hfd]
        simp [List.mem_cons, hfd, h1]

/-- The `_closed_stderr` flag is set exactly by `pipe_connection_lost(2)`. -/
theorem pRun_closed2 (evs : List PEvent) (s : ProtoState) :
    (pRun s evs).closedStderr
      = (s.closedStderr || decide (PEvent.lost 2 ∈ evs)) := by
  induction evs generalizing s with
  | nil => simp [pRun_nil]
  | cons e t ih =>
    rw [pRun_cons, ih]
    cases e with
    | data fd c => simp [List.mem_cons]
    | procExit => simp [List.mem_cons]
    | lost fd =>
      by_cases hfd : fd = 2
      · subst hfd; simp [List.mem_cons]
      · have h2 : decide (2 = fd) = false := by simp [Ne.symm hfd]
        simp [List.mem_cons, hfd, h2]

/-- While no `process_exited` callback has been delivered, no flush, no
`finished` transition and no future resolution can happen. -/
theorem pRun_frozen_no_procExit (evs : List PEvent) (s : ProtoState)
    (hmem : PEvent.procExit ∉ evs) (hex : s.exited = false) :
    (pRun s evs).exited = false ∧
    (pRun s evs).flushCalls = s.flushCalls ∧
    (pRun s evs).finishTransitions = s.finishTransitions ∧
    (pRun s evs).futureResolutions = s.futureResolutions := by
  induction evs generalizing s with
  | nil => exact ⟨hex, rfl, rfl, rfl⟩
  | cons e t ih =>
    rw [pRun_cons]
    have hne : e ≠ PEvent.procExit := fun h => hmem (h ▸ List.mem_cons_self e t)
    have hmt : PEvent.procExit ∉ t := fun h => hmem (List.mem_cons_of_mem e h)
    have hex' : (stepT s e).exited = false := by
      cases e with
      | data fd c => simpa using hex
      | lost fd => simpa using hex
      | procExit => exact absurd rfl hne
    have hcnt : (stepT s e).flushCalls = s.flushCalls ∧
        (stepT s e).finishTransitions = s.finishTransitions ∧
        (stepT s e).futureResolutions = s.futureResolutions := by
      cases e with
      | data fd c => simp
      | lost fd => simp [hex]
      | procExit => exact absurd rfl hne
    obtain ⟨h1, h2, h3, h4⟩ := ih (stepT s e) hmt hex'
    exact ⟨h1, h2.trans hcnt.1, h3.trans hcnt.2.1, h4.trans hcnt.2.2⟩

/-- While stdout's connection-lost callback has not been delivered, no
flush, no `finished` transition and no future resolution can happen. -/
theorem pRun_frozen_no_lost1 (evs : List PEvent) (s : ProtoState)
    (hmem : PEvent.lost 1 ∉ evs) (hcl : s.closedStdout = false) :
    (pRun s evs).closedStdout = false ∧
    (pRun s evs).flushCalls = s.flushCalls ∧
    (pRun s evs).finishTransitions = s.finishTransitions ∧
    (pRun s evs).futureResolutions = s.futureResolutions := by
  induction evs generalizing s with
  | nil => exact ⟨hcl, rfl, rfl, rfl⟩
  | cons e t ih =>
    rw [pRun_cons]
    have hne : e ≠ PEvent.lost 1 := fun h => hmem (h ▸ List.mem_cons_self e t)
    have hmt : PEvent.lost 1 ∉ t := fun h => hmem (List.mem_cons_of_mem e h)
    have hcl' : (stepT s e).closedStdout = false := by
      cases e with
      | data fd c => simpa using hcl
      | procExit => simpa using hcl
      | lost fd =>
        have hfd : fd ≠ 1 := fun h => hne (by rw [h])
        simpa [hfd] using hcl
    have hcnt : (stepT s e).flushCalls = s.flushCalls ∧
        (stepT s e).finishTransitions = s.finishTransitions ∧
        (stepT s e).futureResolutions = s.futureResolutions := by
      cases e with
      | data fd c => simp
      | procExit => simp [hcl]
      | lost fd =>
        have hfd : fd ≠ 1 := fun h => hne (by rw [h])
        simp [hfd, hcl]
    obtain ⟨h1, h2, h3, h4⟩ := ih (stepT s e) hmt hcl'
    exact ⟨h1, h2.trans hcnt.1, h3.trans hcnt.2.1, h4.trans hcnt.2.2⟩

/-- While stderr's connection-lost callback has not been delivered, no
flush, no `finished` transition and no future resolution can happen. -/
theorem pRun_frozen_no_lost2 (evs : List PEvent) (s : ProtoState)
    (hmem : PEvent.lost 2 ∉ evs) (hcl : s.closedStderr = false) :
    (pRun s evs).closedStderr = false ∧
    (pRun s evs).flushCalls = s.flushCalls ∧
    (pRun s evs).finishTransitions = s.finishTransitions ∧
    (pRun s evs).futureResolutions = s.futureResolutions := by
  induction evs generalizing s with
  | nil => exact ⟨hcl, rfl, rfl, rfl⟩
  | cons e t ih =>
    rw [pRun_cons]
    have hne : e ≠ PEvent.lost 2 := fun h => hmem (h ▸ List.mem_cons_self e t)
    have hmt : PEvent.lost 2 ∉ t := fun h => hmem (List.mem_cons_of_mem e h)
    have hcl' : (stepT s e).closedStderr = false := by
      cases e with
      | data fd c => simpa using hcl
      | procExit => simpa using hcl
      | lost fd =>
        have hfd : fd ≠ 2 := fun h => hne (by rw [h])
        simpa [hfd] using hcl
    have hcnt : (stepT s e).flushCalls = s.flushCalls ∧
        (stepT s e).finishTransitions = s.finishTransitions ∧
        (stepT s e).futureResolutions = s.futureResolutions := by
      cases e with
      | data fd c => simp
      | procExit => simp [hcl]
      | lost fd =>
        have hfd : fd ≠ 2 := fun h => hne (by rw [h])
        simp [hfd, hcl]
    obtain ⟨h1, h2, h3, h4⟩ := ih (stepT s e) hmt hcl'
    exact ⟨h1, h2.trans hcnt.1, h3.trans hcnt.2.1, h4.trans hcnt.2.2⟩

-- ## Helper lemmas: buffers and chunk feeding

theorem rfindNL_eq_none (l : List Byte) (h : 10 ∉ l) : rfindNL l = none := by
  induction l with
  | nil => rfl
  | cons c rest ih =>
    have hc : c ≠ 10 := fun hc => h (hc ▸ List.mem_cons_self c rest)
    have hr : 10 ∉ rest := fun hr => h (List.mem_cons_of_mem c hr)
    simp [rfindNL, ih hr, hc]

theorem flushLine_no_nl (tag b : List Byte) (h : 10 ∉ b) :
    flushLine tag b = ([], b) := by
  simp [flushLine, rfindNL_eq_none b h]

/-- Feeding newline-free stderr chunks only grows the stderr buffer. -/
theorem pRun_data2_no_nl (cs : List (List Byte)) (s : ProtoState)
    (h : 10 ∉ s.errBuf ++ cs.flatten) :
    pRun s (cs.map (PEvent.data 2)) = { s with errBuf := s.errBuf ++ cs.flatten } := by
  induction cs generalizing s with
  | nil => simp [pRun_nil]
  | cons c t ih =>
    have hc : 10 ∉ s.errBuf ++ c := by
      intro hx
      apply h
      rcases List.mem_append.mp hx with h1 | h2
      · exact List.mem_append.mpr (Or.inl h1)
      · exact List.mem_append.mpr (Or.inr (by simp [List.mem_append, h2]))
    have hstep : stepT s (PEvent.data 2 c) = { s with errBuf := s.errBuf ++ c } := by
      have hfl := flushLine_no_nl s.tag (s.errBuf ++ c) hc
      cases hE : s.exited <;> cases hC1 : s.closedStdout <;> cases hC2 : s.closedStderr <;>
        simp [stepT, pStep, signalExit, flushAll, finishedP, hE, hC1, hC2, hfl]
    rw [List.map_cons, pRun_cons, hstep]
    have ht : 10 ∉ ({ s with errBuf := s.errBuf ++ c } : ProtoState).errBuf ++ t.flatten := by
      simpa [List.append_assoc] using h
    rw [ih _ ht]
    simp [List.append_assoc]

/-- In capture mode, stdout data events only grow the stdout buffer. -/
theorem pRun_data1_capture (cs : List (List Byte)) (s : ProtoState)
    (hus : s.useStdout = true) :
    pRun s (cs.map (PEvent.data 1)) = { s with outBuf := s.outBuf ++ cs.flatten } := by
  induction cs generalizing s with
  | nil => simp [pRun_nil]
  | cons c t ih =>
    have hstep : stepT s (PEvent.data 1 c) = { s with outBuf := s.outBuf ++ c } := by
      cases hE : s.exited <;> cases hC1 : s.closedStdout <;> cases hC2 : s.closedStderr <;>
        simp [stepT, pStep, signalExit, flushAll, finishedP, hE, hC1, hC2, hus]
    rw [List.map_cons, pRun_cons, hstep]
    rw [ih _ (by simpa using hus)]
    simp [List.append_assoc]

/-- Events other than stdout data never touch the stdout buffer. -/
theorem pRun_outBuf_no_data1 (evs : List PEvent) (s : ProtoState)
    (h : ∀ c : List Byte, PEvent.data 1 c ∉ evs) :
    (pRun s evs).outBuf = s.outBuf := by
  induction evs generalizing s with
  | nil => rfl
  | cons e t ih =>
    rw [pRun_cons]
    have ht : ∀ c : List Byte, PEvent.data 1 c ∉ t :=
      fun c hc => h c (List.mem_cons_of_mem e hc)
    rw [ih _ ht]
    cases e with
    | data fd c =>
      have hfd : fd ≠ 1 := by
        intro hfd; exact h c (by rw [hfd]; exact List.mem_cons_self _ _)
      simp [hfd]
    | lost fd => simp
    | procExit => simp

/-- In capture mode no write to the local stdout sink ever happens. -/
theorem pRun_outWrites_capture (evs : List PEvent) (s : ProtoState)
    (hus : s.useStdout = true) :
    (pRun s evs).outWrites = s.outWrites := by
  induction evs generalizing s with
  | nil => rfl
  | cons e t ih =>
    rw [pRun_cons, ih _ (by simpa using hus)]
    cases e with
    | data fd c => simp [hus]
    | lost fd =>
      by_cases hfin : (s.exited && (if fd = 1 then true else s.closedStdout)
          && (if fd = 2 then true else s.closedStderr)) = true
      · simp [hfin, hus]
      · simp [hfin, hus]
    | procExit =>
      by_cases hfin : (s.closedStdout && s.closedStderr) = true
      · simp [hfin, hus]
      · simp [hfin, hus]

/-- The stderr pipeline is oblivious to capture mode: two states that agree
on the stderr-relevant fields keep agreeing after any callback. -/
theorem errEq_stepT (s t : ProtoState) (e : PEvent) (h : ErrEq s t) :
    ErrEq (stepT s e) (stepT t e) := by
  obtain ⟨h1, h2, h3, h4, h5, h6, h7, h8, h9⟩ := h
  cases e with
  | data fd c =>
    exact ⟨by simp [h1], by simp [h1, h2], by simp [h1, h2, h3], by simp [h4],
      by simp [h5], by simp [h6], by simp [h7], by simp [h8], by simp [h9]⟩
  | lost fd =>
    refine ⟨by simp [h1], by simp [h2], ?_, by simp [h4], ?_, ?_, ?_, ?_, ?_⟩
    · simp [h1, h2, h3, h4, h5, h6]
    · simp [h5]
    · simp [h6]
    · simp [h4, h5, h6, h7]
    · simp [finishedP, h4, h5, h6, h8]
    · simp [h4, h5, h6, h9]
  | procExit =>
    refine ⟨by simp [h1], by simp [h2], ?_, by simp, ?_, ?_, ?_, ?_, ?_⟩
    · simp [h1, h2, h3, h5, h6]
    · simp [h5]
    · simp [h6]
    · simp [h5, h6, h7]
    · simp [finishedP, h4, h5, h6, h8]
    · simp [h5, h6, h9]

theorem errEq_pRun (evs : List PEvent) (s t : ProtoState) (h : ErrEq s t) :
    ErrEq (pRun s evs) (pRun t evs) := by
  induction evs generalizing s t with
  | nil => exact h
  | cons e rest ih => exact ih _ _ (errEq_stepT s t e h)

-- ## Helper lemmas: orchestrator aggregation

theorem stepHost_failures (us : Bool) (st : RunState) (r : HostRun) :
    (stepHost us st r).failures
      = st.failures ++ (if r.exitCode ≠ 0 then [r.host] else []) := by
  unfold stepHost
  split_ifs <;> simp_all

theorem foldl_failures (us : Bool) (l : List HostRun) (st : RunState) :
    (l.foldl (stepHost us) st).failures
      = st.failures
        ++ (l.filter (fun r => decide (r.exitCode ≠ 0))).map HostRun.host := by
  induction l generalizing st with
  | nil => simp
  | cons r t ih =>
    rw [List.foldl_cons, ih]
    by_cases hr : r.exitCode = 0
    · simp [stepHost_failures, hr]
    · simp [stepHost_failures, hr]

theorem lookup_dictInsert_self (k v : List Byte) (d : List (List Byte × List Byte)) :
    lookupD k (dictInsert k v d) = some v := by
  induction d with
  | nil => simp [dictInsert, lookupD]
  | cons p rest ih =>
    by_cases h : p.1 = k
    · simp [dictInsert, lookupD, h]
    · simp [dictInsert, lookupD, h, ih]

theorem lookup_dictInsert_ne (q k v : List Byte) (d : List (List Byte × List Byte))
    (h : k ≠ q) : lookupD q (dictInsert k v d) = lookupD q d := by
  induction d with
  | nil => simp [dictInsert, lookupD, h]
  | cons p rest ih =>
    by_cases hp : p.1 = k
    · simp [dictInsert, lookupD, hp, h]
    · simp [dictInsert, lookupD, hp, ih]

theorem stepHost_outputs_ne (us : Bool) (st : RunState) (r : HostRun)
    (k : List Byte) (h : r.host ≠ k) :
    lookupD k (stepHost us st r).outputs = lookupD k st.outputs := by
  unfold stepHost
  split_ifs <;> simp [lookup_dictInsert_ne _ _ _ _ h]

theorem foldl_outputs_ne (us : Bool) (l : List HostRun) (st : RunState)
    (k : List Byte) (h : ∀ r ∈ l, r.host ≠ k) :
    lookupD k (l.foldl (stepHost us) st).outputs = lookupD k st.outputs := by
  induction l generalizing st with
  | nil => rfl
  | cons r t ih =>
    rw [List.foldl_cons, ih _ (fun r' hr' => h r' (List.mem_cons_of_mem r hr'))]
    exact stepHost_outputs_ne us st r k (h r (List.mem_cons_self r t))

/-- Any key present in the outputs dict was put there by a session that
exited with status 0. -/
theorem foldl_outputs_key_source (us : Bool) (l : List HostRun) (st : RunState)
    (k : List Byte) (h : lookupD k (l.foldl (stepHost us) st).outputs ≠ none) :
    lookupD k st.outputs ≠ none ∨ ∃ r ∈ l, r.host = k ∧ r.exitCode = 0 := by
  induction l generalizing st with
  | nil => exact Or.inl h
  | cons r t ih =>
    rw [List.foldl_cons] at h
    rcases ih (stepHost us st r) h with h1 | ⟨r', hr', hk, he⟩
    · by_cases hhost : r.host = k
      · by_cases hexit : r.exitCode = 0
        · exact Or.inr ⟨r, List.mem_cons_self r t, hhost, hexit⟩
        · rw [show stepHost us st r = { st with failures := st.failures ++ [r.host] }
                from by unfold stepHost; simp [hexit]] at h1
          exact Or.inl h1
      · rw [stepHost_outputs_ne us st r k hhost] at h1
        exact Or.inl h1
    · exact Or.inr ⟨r', List.mem_cons_of_mem r hr', hk, he⟩

/-- The captured stdout of a session equals the concatenation of every
chunk its child wrote to stdout. -/
theorem runSession_capture_outBuf (r : HostRun) :
    (runSession true r).outBuf = r.stdoutChunks.flatten := by
  unfold runSession sessionEvents
  rw [List.append_assoc, pRun_append]
  rw [pRun_data1_capture _ _ (by simp [initProto])]
  rw [pRun_outBuf_no_data1]
  · simp [initProto]
  · intro c hc
    rcases List.mem_append.mp hc with h1 | h2
    · rcases List.mem_map.mp h1 with ⟨x, _, hx⟩
      exact absurd hx (by simp)
    · simp at h2

-- ## Helper lemmas: bytes.splitlines vs newline-only splitting

theorem splitLinesAux_no_cr (l acc : List Byte) :
    13 ∉ l → splitLinesAux l acc = splitNLAux l acc := by
  induction l, acc using splitLinesAux.induct with
  | _ => intro h; try simp_all [splitLinesAux, splitNLAux]

theorem splitLines_no_cr (l : List Byte) (h : 13 ∉ l) :
    splitLines l = splitNLOnly l :=
  splitLinesAux_no_cr l [] h

-- ## Helper lemmas: the fault slot

theorem foldl_overwrite_eq_getLast (l : List (Option Nat)) (acc : Option Nat) :
    l.foldl
        (fun slot o => match o with
          | none => slot
          | some e => recordFault slot e)
        acc
      = (match (l.filterMap id).getLast? with
          | none => acc
          | some e => some e) := by
  induction l generalizing acc with
  | nil => rfl
  | cons o t ih =>
    cases o with
    | none => simpa [List.filterMap_cons] using ih acc
    | some e =>
      rw [List.foldl_cons, ih (recordFault acc e)]
      simp only [List.filterMap_cons, id]
      cases hcase : t.filterMap id with
      | nil => simp [hcase, recordFault]
      | cons x xs =>
        rw [List.getLast?_cons_cons]
        have hg := List.getLast?_eq_getLast_of_ne_nil (show x :: xs ≠ [] by simp)
        rw [hg]

theorem foldl_firstwins_of_some (l : List (Option Nat)) (f : Nat) :
    l.foldl
        (fun slot o => match slot with
          | some g => some g
          | none => o)
        (some f)
      = some f := by
  induction l with
  | nil => rfl
  | cons o t ih => simpa using ih

theorem specFaultSlot_eq_head (l : List (Option Nat)) :
    specFaultSlot l = (l.filterMap id).head? := by
  induction l with
  | nil => rfl
  | cons o t ih =>
    cases o with
    | none => simpa [specFaultSlot, List.filterMap_cons] using ih
    | some e =>
      unfold specFaultSlot
      rw [List.foldl_cons]
      simpa [List.filterMap_cons] using foldl_firstwins_of_some t e

-- ## Claim theorems

/-- Claim C4, counterexample: with the insecure flag SET the source omits
the host-identity-bypass options, while the claim says they are present —
at `insecure = true`, `host = "h"`, `args = ["date"]` the constructed argv
differs from the claimed one. -/
theorem claim_C4_counterexample :
    buildCmd true "h" ["date"] ≠ specCmd true "h" ["date"] ∧
    buildCmd true "h" ["date"] = _SSH ++ ["h", "date"] ∧
    specCmd true "h" ["date"] = _SSH ++ _INSECURE_OPTS ++ ["h", "date"] := by
  refine ⟨?_, rfl, rfl⟩
  intro h
  simpa [buildCmd, specCmd, _SSH, _INSECURE_OPTS] using h

/-- Claim C4, amended: the argv is exactly the fixed safety options, then —
when and only when the insecure flag is NOT set — the host-identity-bypass
options, then the hostname, then the caller-supplied arguments. -/
theorem claim_C4_amended (insecure : Bool) (host : String) (args : List String) :
    buildCmd insecure host args = specCmdAmended insecure host args := by
  cases insecure <;> rfl

/-- Claim C6: with concurrency bound N > 0, in every reachable state of a
run the semaphore's acquired-slot count equals the number of sessions
between acquire and release (so every session that ended — normally,
by failure, or by cancellation — holds no slot), it never exceeds N, and
no session is lost. -/
theorem claim_C6 (N total : Nat) (s : GateState) (hN : 0 < N)
    (h : GReach N total s) :
    s.slots = s.running ∧ s.slots ≤ N ∧
      s.pending + s.running + s.finished = total := by
  induction h with
  | refl => simp
  | tail hr hstep ih => cases hstep <;> simp_all <;> omega

/-- Claim C6, witness: with `maxConcurrency = 2` and 5 hosts, the state
after two admissions is reachable and satisfies the bound. -/
theorem claim_C6_witness :
    (⟨3, 2, 0, 2⟩ : GateState).slots = (⟨3, 2, 0, 2⟩ : GateState).running ∧
    (⟨3, 2, 0, 2⟩ : GateState).slots ≤ 2 ∧
    (⟨3, 2, 0, 2⟩ : GateState).pending + (⟨3, 2, 0, 2⟩ : GateState).running
        + (⟨3, 2, 0, 2⟩ : GateState).finished = 5 :=
  claim_C6 2 5 ⟨3, 2, 0, 2⟩ (by decide)
    (Relation.ReflTransGen.tail
      (Relation.ReflTransGen.tail Relation.ReflTransGen.refl
        (GStep.acquire 5 0 0 0 (by decide) (by decide)))
      (GStep.acquire 4 1 0 1 (by decide) (by decide)))

/-- Claim C7, counterexample: two sessions report faults 1 then 2; the
source's slot (`self._exc = e`, an unconditional overwrite) ends holding
fault 2 and is written twice, while the claim's first-writer-wins slot
holds fault 1 — so the recorded fault is not the first one and the slot is
not set exactly once. -/
theorem claim_C7_counterexample :
    runExc [some 1, some 2] = some 2 ∧
    specFaultSlot [some 1, some 2] = some 1 ∧
    excWriteCount [some 1, some 2] = 2 ∧
    runExc [some 1, some 2] ≠ specFaultSlot [some 1, some 2] := by
  refine ⟨rfl, rfl, rfl, ?_⟩
  intro h
  simpa [runExc, specFaultSlot, recordFault] using h

/-- Claim C7, amended: the fault slot is overwritten by every reported
fault (last-writer-wins): after all sessions settle it holds the LAST
reported fault — which `run()` then re-raises — whereas the spec's
first-writer-wins slot would hold the first. -/
theorem claim_C7_amended (reports : List (Option Nat)) :
    runExc reports = (reports.filterMap id).getLast? ∧
    specFaultSlot reports = (reports.filterMap id).head? := by
  constructor
  · unfold runExc
    rw [foldl_overwrite_eq_getLast]
    cases (reports.filterMap id).getLast? <;> rfl
  · exact specFaultSlot_eq_head reports

/-- Claim C9: the input-file handle is closed by `exit_future`'s done
callback, which runs only when the future completes; on the spawn-failure
exit path the future is never resolved, so the handle is never closed —
on the other two paths it is closed exactly once. -/
theorem claim_C9 :
    infileCloseCount StdinExitPath.spawnFailure = 0 ∧
    infileCloseCount StdinExitPath.normal = 1 ∧
    infileCloseCount StdinExitPath.cancelledAwaitingExit = 1 := by
  decide

/-- Claim C1: a host appears in `failed_hosts` exactly when its child
exited nonzero (the failure list is exactly the failing hosts, in order,
and a hostname is in it iff one of its sessions exited nonzero), and
`run()` returns `True` iff `failed_hosts` is empty. -/
theorem claim_C1 (us : Bool) (hosts : List HostRun) :
    (runAll us hosts).failures
        = (hosts.filter (fun r => decide (r.exitCode ≠ 0))).map HostRun.host
    ∧ (∀ h, h ∈ (runAll us hosts).failures
        ↔ ∃ r ∈ hosts, r.host = h ∧ r.exitCode ≠ 0)
    ∧ (runBool us hosts = true ↔ (runAll us hosts).failures = []) := by
  have hf : (runAll us hosts).failures
      = (hosts.filter (fun r => decide (r.exitCode ≠ 0))).map HostRun.host := by
    unfold runAll
    rw [foldl_failures]
    rfl
  refine ⟨hf, ?_, ?_⟩
  · intro h
    rw [hf]
    simp only [List.mem_map, List.mem_filter, decide_eq_true_eq]
    constructor
    · rintro ⟨r, ⟨hr, hex⟩, hh⟩
      exact ⟨r, hr, hh, hex⟩
    · rintro ⟨r, hr, hh, hex⟩
      exact ⟨r, ⟨hr, hex⟩, hh⟩
  · by_cases he : hosts = []
    · subst he
      simp [runBool, runAll]
    · have hne : hosts.isEmpty = false := by
        simpa [List.isEmpty_iff] using he
      simp [runBool, hne, List.isEmpty_iff]

/-- Claim C2, counterexample: the source splits the flushed region with
Python's `bytes.splitlines`, which also breaks lines at carriage-return
bytes.  On buffer `b"a\r b\n"` (bytes 97 13 98 10) with host `H` the code
makes two sink writes, `b"[H] a\r"` and `b"[H] b\n"`, while the claim
(lines delimited only by newline bytes) demands the single write
`b"[H] a\r b\n"`. -/
theorem claim_C2_counterexample :
    flushLine [91, 72, 93, 32] [97, 13, 98, 10]
        ≠ specFlushLine [91, 72, 93, 32] [97, 13, 98, 10] ∧
    flushLine [91, 72, 93, 32] [97, 13, 98, 10]
        = ([[91, 72, 93, 32, 97, 13], [91, 72, 93, 32, 98, 10]], []) ∧
    specFlushLine [91, 72, 93, 32] [97, 13, 98, 10]
        = ([[91, 72, 93, 32, 97, 13, 98, 10]], []) := by
  refine ⟨?_, by decide, by decide⟩
  decide

/-- Claim C2, amended: provided the stream bytes contain no carriage
return (0x0D) — which Python's `bytes.splitlines` also treats as a line
break — each chunk arrival behaves exactly as claimed: append the chunk,
split at the last newline, emit one `[hostname] `-prefixed write per
newline-terminated line, and keep the newline-less tail. -/
theorem claim_C2_amended (tag buf chunk : List Byte)
    (hbuf : 13 ∉ buf) (hchunk : 13 ∉ chunk) :
    flushLine tag (buf ++ chunk) = specFlushLine tag (buf ++ chunk) := by
  have hall : 13 ∉ buf ++ chunk := by
    intro h
    rcases List.mem_append.mp h with h1 | h2
    · exact hbuf h1
    · exact hchunk h2
  unfold flushLine specFlushLine
  cases hpos : rfindNL (buf ++ chunk) with
  | none => rfl
  | some pos =>
    have htake : 13 ∉ (buf ++ chunk).take (pos + 1) :=
      fun hx => hall (List.take_subset _ _ hx)
    simp [splitLines_no_cr _ htake]

/-- Claim C2, witness: chunk `"abc"` buffered, then chunk `"def\n"`
arriving, yields exactly one emitted line `"[H] abcdef\n"`, matching the
spec-side behaviour. -/
theorem claim_C2_witness :
    flushLine [91, 72, 93, 32] ([97, 98, 99] ++ [100, 101, 102, 10])
        = specFlushLine [91, 72, 93, 32] ([97, 98, 99] ++ [100, 101, 102, 10]) ∧
    flushLine [91, 72, 93, 32] ([97, 98, 99] ++ [100, 101, 102, 10])
        = ([[91, 72, 93, 32, 97, 98, 99, 100, 101, 102, 10]], []) :=
  ⟨claim_C2_amended [91, 72, 93, 32] [97, 98, 99] [100, 101, 102, 10]
      (by decide) (by decide),
   by decide⟩

/-- Claim C8: a session whose stream delivers only newline-less chunks
(so that at completion the buffer holds exactly their concatenation, a
fragment without trailing newline) emits that fragment exactly once at
completion, prefixed and with one synthetic newline appended; if the
buffer is empty, nothing is emitted. -/
theorem claim_C8 (host : List Byte) (cs : List (List Byte))
    (hnl : 10 ∉ cs.flatten) :
    (pRun (initProto host false)
        (cs.map (PEvent.data 2)
          ++ [PEvent.lost 1, PEvent.lost 2, PEvent.procExit])).errWrites
      = if cs.flatten = [] then []
        else [([91] ++ host ++ [93, 32]) ++ cs.flatten ++ [10]] := by
  rw [pRun_append]
  rw [pRun_data2_no_nl _ _ (by simpa [initProto] using hnl)]
  have h1 : ∀ s : ProtoState, s.exited = false → s.closedStdout = false →
      s.closedStderr = false → s.useStdout = false →
      (pRun s [PEvent.lost 1, PEvent.lost 2, PEvent.procExit]).errWrites
        = s.errWrites ++ flushBuf s.tag s.errBuf := by
    intro s hE hC1 hC2 hU
    show (stepT (stepT (stepT s (PEvent.lost 1)) (PEvent.lost 2)) PEvent.procExit).errWrites = _
    simp [hE, hC1, hC2, hU]
  rw [h1 _ (by simp [initProto]) (by simp [initProto]) (by simp [initProto])
      (by simp [initProto])]
  by_cases hflat : cs.flatten = []
  · simp [initProto, flushBuf, hflat]
  · simp [initProto, flushBuf, hflat]

/-- Claim C8, witness: chunks `"ta"`, `"il"` on stderr are flushed at
completion as the single write `"[H] tail\n"`. -/
theorem claim_C8_witness :
    (pRun (initProto [72] false)
        ([[116, 97], [105, 108]].map (PEvent.data 2)
          ++ [PEvent.lost 1, PEvent.lost 2, PEvent.procExit])).errWrites
      = [[91, 72, 93, 32, 116, 97, 105, 108, 10]] :=
  claim_C8 [72] [[116, 97], [105, 108]] (by decide)

/-- Claim C3, counterexample: in capture mode a host whose command exits
nonzero gets NO entry in `outputs`, even though it wrote bytes to stdout —
host `H` (byte 72) writes `b"x"` (byte 120) and exits 1, and after the run
`outputs` has no entry for it (in particular not `b"x"`). -/
theorem claim_C3_counterexample :
    lookupD [72] (runAll true [⟨[72], 1, [[120]], []⟩]).outputs = none ∧
    lookupD [72] (runAll true [⟨[72], 1, [[120]], []⟩]).outputs ≠ some [120] := by
  refine ⟨by decide, by decide⟩

/-- Claim C3, amended: with `use_stdout=True`, for every host whose command
exits 0, `outputs[H]` is exactly the concatenation of the bytes written to
its stdout — retained verbatim, never emitted live (no write to the local
stdout sink ever happens) — while its stderr stream is forwarded exactly
as in non-capture mode.  (Hosts exiting nonzero get no entry; see C10.) -/
theorem claim_C3_amended (hosts : List HostRun) (r : HostRun)
    (hnd : (hosts.map HostRun.host).Nodup) (hmem : r ∈ hosts)
    (hexit : r.exitCode = 0) :
    lookupD r.host (runAll true hosts).outputs = some r.stdoutChunks.flatten ∧
    (runSession true r).outWrites = [] ∧
    (runSession true r).errWrites = (runSession false r).errWrites := by
  refine ⟨?_, ?_, ?_⟩
  · obtain ⟨l1, l2, hsplit⟩ := List.append_of_mem hmem
    subst hsplit
    unfold runAll
    rw [List.foldl_append, List.foldl_cons]
    have hl2 : ∀ r' ∈ l2, r'.host ≠ r.host := by
      intro r' hr' heq
      have h1 : (List.map HostRun.host (r :: l2)).Nodup := by
        rw [List.map_append] at hnd
        exact hnd.of_append_right
      have h2 : r.host ∉ List.map HostRun.host l2 := by
        simpa using (List.nodup_cons.mp h1).1
      exact h2 (heq ▸ List.mem_map_of_mem HostRun.host hr')
    rw [foldl_outputs_ne true l2 _ r.host hl2]
    unfold stepHost
    simp [hexit, runSession_capture_outBuf, lookup_dictInsert_self]
  · unfold runSession
    rw [pRun_outWrites_capture _ _ (by simp [initProto])]
    simp [initProto]
  · have h := errEq_pRun (sessionEvents r) (initProto r.host true)
      (initProto r.host false) ⟨rfl, rfl, rfl, rfl, rfl, rfl, rfl, rfl, rfl⟩
    exact h.2.2.1

/-- Claim C3, witness: host `H` exits 0 after writing chunks `"x\n"`, `"y"`
to stdout and `"e\n"` to stderr; `outputs[H] = "x\ny"` verbatim, nothing
was written live to the stdout sink, and stderr behaved as in non-capture
mode. -/
theorem claim_C3_witness :
    lookupD [72]
        (runAll true [⟨[72], 0, [[120, 10], [121]], [[101, 10]]⟩]).outputs
      = some [120, 10, 121] ∧
    (runSession true ⟨[72], 0, [[120, 10], [121]], [[101, 10]]⟩).outWrites = [] ∧
    (runSession true ⟨[72], 0, [[120, 10], [121]], [[101, 10]]⟩).errWrites
      = (runSession false ⟨[72], 0, [[120, 10], [121]], [[101, 10]]⟩).errWrites :=
  claim_C3_amended [⟨[72], 0, [[120, 10], [121]], [[101, 10]]⟩]
    ⟨[72], 0, [[120, 10], [121]], [[101, 10]]⟩ (by decide) (by decide) rfl

/-- Claim C10: with `use_stdout=True`, `outputs` gains an entry only for
hosts that exited 0: no host in `failed_hosts` has an entry in `outputs`
(hostnames assumed distinct, as a dict keyed by hostname presumes). -/
theorem claim_C10 (hosts : List HostRun)
    (hnd : (hosts.map HostRun.host).Nodup) :
    ∀ h, h ∈ (runAll true hosts).failures →
      lookupD h (runAll true hosts).outputs = none := by
  intro h hmem
  by_contra hne
  have hfail : ∃ rf, rf ∈ hosts ∧ rf.host = h ∧ rf.exitCode ≠ 0 := by
    unfold runAll at hmem
    rw [foldl_failures] at hmem
    simp only [List.nil_append, List.mem_map, List.mem_filter,
      decide_eq_true_eq] at hmem
    obtain ⟨rf, ⟨hr, hex⟩, hh⟩ := hmem
    exact ⟨rf, hr, hh, hex⟩
  obtain ⟨rf, hrf, hrfh, hrfex⟩ := hfail
  have hout := foldl_outputs_key_source true hosts ⟨[], []⟩ h
    (by unfold runAll at hne; exact hne)
  rcases hout with hinit | ⟨rs, hrs, hrsh, hrsez⟩
  · exact hinit rfl
  · have hsame : rs = rf :=
      List.inj_on_of_nodup_map hnd hrs hrf (by rw [hrsh, hrfh])
    rw [hsame] at hrsez
    exact hrfex hrsez

/-- Claim C10, witness: host A (byte 65) fails with captured output
`b"x"`, host B (byte 66) succeeds; A is in `failed_hosts` and has no
entry in `outputs`. -/
theorem claim_C10_witness :
    lookupD [65]
        (runAll true [⟨[65], 1, [[120]], []⟩, ⟨[66], 0, [[121]], []⟩]).outputs
      = none :=
  claim_C10 [⟨[65], 1, [[120]], []⟩, ⟨[66], 0, [[121]], []⟩]
    (by decide) [65] (by decide)

/-- Claim C5, counterexample: the claim quantifies over orderings that
include a stdin-pipe connection-lost event.  If that event arrives after
the process exit and both output pipes closing, `pipe_connection_lost(0)`
calls `signal_exit` on an already-`finished` protocol: the final flush
runs a SECOND time (re-emitting the buffers, which `flush` never clears)
and `exit_future.set_result` is called a second time (which raises
`InvalidStateError` in asyncio).  The `finished` predicate itself still
transitions only once. -/
theorem claim_C5_counterexample :
    (pRun (initProto [72] false)
        [PEvent.lost 1, PEvent.lost 2, PEvent.procExit,
          PEvent.lost 0]).flushCalls = 2 ∧
    (pRun (initProto [72] false)
        [PEvent.lost 1, PEvent.lost 2, PEvent.procExit,
          PEvent.lost 0]).futureResolutions = 2 ∧
    (pRun (initProto [72] false)
        [PEvent.lost 1, PEvent.lost 2, PEvent.procExit,
          PEvent.lost 0]).finishTransitions = 1 := by
  decide

/-- Claim C5, amended: under every ordering of the process-exit event and
the stdout/stderr connection-lost events (each delivered exactly once,
with any number of data events and stdin connection-lost events
interleaved BEFORE the last of those three), `finished` transitions to
true exactly once, the final flush of both buffers runs exactly once (on
that transition), and the exit future is resolved exactly once. -/
theorem claim_C5_amended (host : List Byte) (us : Bool) (l : List PEvent)
    (e : PEvent)
    (hexit : (l ++ [e]).count PEvent.procExit = 1)
    (hl1 : (l ++ [e]).count (PEvent.lost 1) = 1)
    (hl2 : (l ++ [e]).count (PEvent.lost 2) = 1)
    (hcore : e = PEvent.procExit ∨ e = PEvent.lost 1 ∨ e = PEvent.lost 2) :
    (pRun (initProto host us) (l ++ [e])).flushCalls = 1 ∧
    (pRun (initProto host us) (l ++ [e])).finishTransitions = 1 ∧
    (pRun (initProto host us) (l ++ [e])).futureResolutions = 1 := by
  rcases hcore with he | he | he <;> subst he
  · -- the completing event is process_exited
    rw [List.count_append,
      show List.count PEvent.procExit [PEvent.procExit] = 1 from by decide] at hexit
    rw [List.count_append,
      show List.count (PEvent.lost 1) [PEvent.procExit] = 0 from by decide] at hl1
    rw [List.count_append,
      show List.count (PEvent.lost 2) [PEvent.procExit] = 0 from by decide] at hl2
    have h0 : PEvent.procExit ∉ l := List.count_eq_zero.mp (by omega)
    have hm1 : PEvent.lost 1 ∈ l := List.count_pos_iff.mp (by omega)
    have hm2 : PEvent.lost 2 ∈ l := List.count_pos_iff.mp (by omega)
    obtain ⟨hex0, hfc, htc, hfu⟩ :=
      pRun_frozen_no_procExit l (initProto host us) h0 (by simp [initProto])
    have hfc0 : (pRun (initProto host us) l).flushCalls = 0 := by rw [hfc]; rfl
    have htc0 : (pRun (initProto host us) l).finishTransitions = 0 := by
      rw [htc]; rfl
    have hfu0 : (pRun (initProto host us) l).futureResolutions = 0 := by
      rw [hfu]; rfl
    have hc1 : (pRun (initProto host us) l).closedStdout = true := by
      rw [pRun_closed1]; simp [hm1]
    have hc2 : (pRun (initProto host us) l).closedStderr = true := by
      rw [pRun_closed2]; simp [hm2]
    rw [pRun_append]
    refine ⟨?_, ?_, ?_⟩ <;>
      simp [pRun_cons, pRun_nil, hex0, hc1, hc2, hfc0, htc0, hfu0]
  · -- the completing event is pipe_connection_lost(1)
    rw [List.count_append,
      show List.count PEvent.procExit [PEvent.lost 1] = 0 from by decide] at hexit
    rw [List.count_append,
      show List.count (PEvent.lost 1) [PEvent.lost 1] = 1 from by decide] at hl1
    rw [List.count_append,
      show List.count (PEvent.lost 2) [PEvent.lost 1] = 0 from by decide] at hl2
    have h0 : PEvent.lost 1 ∉ l := List.count_eq_zero.mp (by omega)
    have hmE : PEvent.procExit ∈ l := List.count_pos_iff.mp (by omega)
    have hm2 : PEvent.lost 2 ∈ l := List.count_pos_iff.mp (by omega)
    obtain ⟨hcl0, hfc, htc, hfu⟩ :=
      pRun_frozen_no_lost1 l (initProto host us) h0 (by simp [initProto])
    have hfc0 : (pRun (initProto host us) l).flushCalls = 0 := by rw [hfc]; rfl
    have htc0 : (pRun (initProto host us) l).finishTransitions = 0 := by
      rw [htc]; rfl
    have hfu0 : (pRun (initProto host us) l).futureResolutions = 0 := by
      rw [hfu]; rfl
    have hexT : (pRun (initProto host us) l).exited = true := by
      rw [pRun_exited]; simp [hmE]
    have hc2 : (pRun (initProto host us) l).closedStderr = true := by
      rw [pRun_closed2]; simp [hm2]
    rw [pRun_append]
    refine ⟨?_, ?_, ?_⟩ <;>
      simp [pRun_cons, pRun_nil, hexT, hcl0, hc2, hfc0, htc0, hfu0]
  · -- the completing event is pipe_connection_lost(2)
    rw [List.count_append,
      show List.count PEvent.procExit [PEvent.lost 2] = 0 from by decide] at hexit
    rw [List.count_append,
      show List.count (PEvent.lost 1) [PEvent.lost 2] = 0 from by decide] at hl1
    rw [List.count_append,
      show List.count (PEvent.lost 2) [PEvent.lost 2] = 1 from by decide] at hl2
    have h0 : PEvent.lost 2 ∉ l := List.count_eq_zero.mp (by omega)
    have hmE : PEvent.procExit ∈ l := List.count_pos_iff.mp (by omega)
    have hm1 : PEvent.lost 1 ∈ l := List.count_pos_iff.mp (by omega)
    obtain ⟨hcl0, hfc, htc, hfu⟩ :=
      pRun_frozen_no_lost2 l (initProto host us) h0 (by simp [initProto])
    have hfc0 : (pRun (initProto host us) l).flushCalls = 0 := by rw [hfc]; rfl
    have htc0 : (pRun (initProto host us) l).finishTransitions = 0 := by
      rw [htc]; rfl
    have hfu0 : (pRun (initProto host us) l).futureResolutions = 0 := by
      rw [hfu]; rfl
    have hexT : (pRun (initProto host us) l).exited = true := by
      rw [pRun_exited]; simp [hmE]
    have hc1 : (pRun (initProto host us) l).closedStdout = true := by
      rw [pRun_closed1]; simp [hm1]
    rw [pRun_append]
    refine ⟨?_, ?_, ?_⟩ <;>
      simp [pRun_cons, pRun_nil, hexT, hcl0, hc1, hfc0, htc0, hfu0]

/-- Claim C5, witness: a stdin connection-lost event, then both pipes
closing, then process exit — one transition, one flush, one resolution. -/
theorem claim_C5_witness :
    (pRun (initProto [72] false)
        ([PEvent.lost 0, PEvent.lost 1, PEvent.lost 2]
          ++ [PEvent.procExit])).flushCalls = 1 ∧
    (pRun (initProto [72] false)
        ([PEvent.lost 0, PEvent.lost 1, PEvent.lost 2]
          ++ [PEvent.procExit])).finishTransitions = 1 ∧
    (pRun (initProto [72] false)
        ([PEvent.lost 0, PEvent.lost 1, PEvent.lost 2]
          ++ [PEvent.procExit])).futureResolutions = 1 :=
  claim_C5_amended [72] false [PEvent.lost 0, PEvent.lost 1, PEvent.lost 2]
    PEvent.procExit (by decide) (by decide) (by decide) (Or.inl rfl)
